import Mathlib

/-!
Shallow embedding of `src/main.py` (class `SimplePDFMerger`): a four-stage
batch pipeline — discover PDF files, merge their pages into one output
document, email the output, archive the inputs.  External collaborators
(the PDF codec, the filesystem, the SMTP transport, the clock) are modelled
as explicit parameters; an exception raised by a collaborator is modelled
as the corresponding `Option`/`Bool` failure value, since every such
exception in the source is caught by a surrounding `try` block.
-/

namespace PDFMerger

/-- Pages are abstract identifiers assigned by the external PDF codec. -/
abbrev Page := Nat

/-- Model of `os.path.join dir name` for a relative `name`:
directory, separator, name. -/
def pjoin (dir name : String) : String := dir ++ "/" ++ name

/-- Model of `os.path.basename`: the part of the path after the last slash. -/
def basename (p : String) : String :=
  String.mk ((p.toList.reverse.takeWhile (fun c => c != '/')).reverse)

/-- Index of the last occurrence of a character in a list, if any. -/
def lastIdxOf (c : Char) : List Char → Option Nat
  | [] => none
  | x :: xs =>
    match lastIdxOf c xs with
    | some i => some (i + 1)
    | none => if x = c then some 0 else none

/-- Model of `os.path.splitext` on a bare file name (no directory part):
split at the last dot, except that a name whose characters before that dot
are all dots has no extension (e.g. `".bashrc"`). -/
def splitext (filename : String) : String × String :=
  match lastIdxOf '.' filename.toList with
  | none => (filename, "")
  | some i =>
    if (filename.toList.take i).all (fun c => decide (c = '.')) then (filename, "")
    else (String.mk (filename.toList.take i), String.mk (filename.toList.drop i))

/-- The glob pattern `*.pdf` of `find_pdf_files`: a name matches exactly when
it ends with the four characters `.pdf` (case-sensitive, as `pathlib`'s
glob on a POSIX filesystem). -/
def matchesPdfGlob (name : String) : Bool :=
  List.isSuffixOf ['.', 'p', 'd', 'f'] name.toList

/-- Observable state of the source directory: whether it exists, and the
names of the entries directly inside it, in the arbitrary order the
filesystem enumerates them. -/
structure SourceDir where
  present : Bool
  entries : List String

/-- Python's string comparison, lexicographic by code point, as an
executable Boolean on the underlying character lists. -/
def charListLe : List Char → List Char → Bool
  | [], _ => true
  | _ :: _, [] => false
  | a :: as, b :: bs =>
    if a < b then true
    else if b < a then false
    else charListLe as bs

/-- Executable `a ≤ b` on path strings: the order Python's `sorted` uses. -/
def strLe (a b : String) : Bool := charListLe a.toList b.toList

/-- Model of `SimplePDFMerger.find_pdf_files`: if the source folder does not
exist, log an error and return the empty list; otherwise append the full
path (`str(file)`) of every entry matching `*.pdf` and return the
collected paths sorted ascending (Python `sorted` on strings). -/
def find_pdf_files (source_folder : String) (src : SourceDir) : List String :=
  if src.present then
    List.insertionSort (fun a b => strLe a b = true)
      (src.entries.foldl
        (fun pdf_files file =>
          if matchesPdfGlob file then pdf_files ++ [pjoin source_folder file]
          else pdf_files)
        [])
  else []

/-- The inner loop of `merge_pdfs`: for each file, try to load it with the
PDF codec (`load f = none` models a `PdfReader` exception, caught by the
inner `try`); on failure log and continue, on success append all the
file's pages, in their original order, to the accumulated writer. -/
def addPages (load : String → Option (List Page)) :
    List String → List Page → List Page
  | [], merger => merger
  | pdf_file :: rest, merger =>
    match load pdf_file with
    | none => addPages load rest merger
    | some pages => addPages load rest (merger ++ pages)

/-- Outcome of `merge_pdfs`: the function's return value, and the output
file (path and page content) written to the merged folder, if any. -/
structure MergeOutcome where
  result : Option String
  written : Option (String × List Page)

/-- Model of `SimplePDFMerger.merge_pdfs`.  `writeOk` models whether opening
and serialising the output file succeeds (a failure is caught by the outer
`try` and yields `None` with nothing written).  An empty input list
returns `None` without writing. -/
def merge_pdfs (load : String → Option (List Page)) (writeOk : Bool)
    (merged_folder timestamp : String) (pdf_files : List String) : MergeOutcome :=
  if pdf_files.isEmpty then { result := none, written := none }
  else
    let output_path := pjoin merged_folder ("merged_" ++ timestamp ++ ".pdf")
    if writeOk then
      { result := some output_path
        written := some (output_path, addPages load pdf_files []) }
    else { result := none, written := none }

/-- The email-relevant configuration keys, each read with fallback `""`. -/
structure EmailConfig where
  smtp_server : String
  sender_email : String
  sender_password : String
  recipients : String
  subject : String
  body : String

/-- Model of `SimplePDFMerger.send_email`.  `smtpOk` models whether the SMTP
session (connect, starttls, optional login, send) completes without an
exception; any exception in the body is caught and the function returns
`False`.  The attachment does not influence the result. -/
def send_email (cfg : EmailConfig) (smtpOk : Bool)
    (attachment_path : Option String) : Bool :=
  if cfg.smtp_server = "" ∨ cfg.sender_email = "" then false
  else if cfg.recipients = "" then false
  else
    let _ := attachment_path
    smtpOk

/-- The archive directory as a list of entries: each is a path present in
the directory, paired with a tag for the source file whose content now
sits at that path. -/
abbrev ArchiveDir := List (String × String)

/-- The destination `archive_files` computes for one file:
`archive_folder/basename`, except that if a file already exists there, the
current time of day is inserted (with an underscore) between the base name
and the extension. -/
def destFor (archive_folder tod : String) (d : ArchiveDir) (file : String) : String :=
  if d.any (fun e => decide (e.1 = pjoin archive_folder (basename file))) then
    pjoin archive_folder
      ((splitext (basename file)).1 ++ "_" ++ tod ++ (splitext (basename file)).2)
  else pjoin archive_folder (basename file)

/-- One `os.rename` into the archive directory: a file already at the
destination is silently replaced, and the moved file appears there. -/
def renameInto (d : ArchiveDir) (dest file : String) : ArchiveDir :=
  d.filter (fun e => decide (e.1 ≠ dest)) ++ [(dest, file)]

/-- Model of `SimplePDFMerger.archive_files`.  `tod` gives the `%H%M%S`
string at the instant each file is processed; `renameOk file = false`
models an exception while moving that file (caught and logged, the loop
continues with the directory unchanged). -/
def archive_files (archive_folder : String) (tod : String → String)
    (renameOk : String → Bool) (d : ArchiveDir) (pdf_files : List String) :
    ArchiveDir :=
  pdf_files.foldl
    (fun d file =>
      if renameOk file then
        renameInto d (destFor archive_folder (tod file) d file) file
      else d)
    d

/-- Everything `run` interacts with: the configured folders, the source
directory state, the PDF codec, the write/SMTP/rename outcomes, the
clock readings and the initial archive directory. -/
structure RunEnv where
  source_folder : String
  merged_folder : String
  archive_folder : String
  src : SourceDir
  load : String → Option (List Page)
  writeOk : Bool
  email : EmailConfig
  smtpOk : Bool
  renameOk : String → Bool
  mergeTimestamp : String
  tod : String → String
  archiveDir : ArchiveDir

/-- The observable outcome of one run: the returned verdict and, per stage,
the argument the stage was invoked with (`none` when never reached). -/
structure RunResult where
  success : Bool
  mergeInput : Option (List String)
  emailAttachment : Option (Option String)
  archiveInput : Option (List String)
  written : Option (String × List Page)
  emailSent : Option Bool
  archiveDirAfter : ArchiveDir

/-- Model of `SimplePDFMerger.run`: discover; return `False` when nothing
was found; merge; return `False` when merge returned `None`; email (the
result is logged but unused); archive; return `True`. -/
def run (env : RunEnv) : RunResult :=
  if (find_pdf_files env.source_folder env.src).isEmpty then
    { success := false, mergeInput := none, emailAttachment := none
      archiveInput := none, written := none, emailSent := none
      archiveDirAfter := env.archiveDir }
  else
    match (merge_pdfs env.load env.writeOk env.merged_folder env.mergeTimestamp
        (find_pdf_files env.source_folder env.src)).result with
    | none =>
      { success := false
        mergeInput := some (find_pdf_files env.source_folder env.src)
        emailAttachment := none, archiveInput := none
        written := (merge_pdfs env.load env.writeOk env.merged_folder
          env.mergeTimestamp (find_pdf_files env.source_folder env.src)).written
        emailSent := none
        archiveDirAfter := env.archiveDir }
    | some merged_file =>
      { success := true
        mergeInput := some (find_pdf_files env.source_folder env.src)
        emailAttachment := some (some merged_file)
        archiveInput := some (find_pdf_files env.source_folder env.src)
        written := (merge_pdfs env.load env.writeOk env.merged_folder
          env.mergeTimestamp (find_pdf_files env.source_folder env.src)).written
        emailSent := some (send_email env.email env.smtpOk (some merged_file))
        archiveDirAfter :=
          archive_files env.archive_folder env.tod env.renameOk env.archiveDir
            (find_pdf_files env.source_folder env.src) }

/-! ## Helper lemmas -/

/-- The merge loop appends, after the accumulator, the concatenation of the
page lists of the files that load, in input order (a failed load
contributes nothing). -/
theorem addPages_eq (load : String → Option (List Page)) :
    ∀ (files : List String) (acc : List Page),
      addPages load files acc =
        acc ++ (files.map (fun f => (load f).getD [])).flatten := by
  intro files
  induction files with
  | nil => intro acc; simp [addPages]
  | cons f rest ih =>
    intro acc
    cases h : load f with
    | none => simp [addPages, h, ih]
    | some ps => simp [addPages, h, ih]

/-- The discovery loop appends, after the accumulator, the joined paths of
exactly the entries matching the glob, in enumeration order. -/
theorem discoverLoop_eq (source_folder : String) :
    ∀ (entries : List String) (acc : List String),
      entries.foldl
        (fun pdf_files file =>
          if matchesPdfGlob file then pdf_files ++ [pjoin source_folder file]
          else pdf_files)
        acc =
      acc ++ (entries.filter matchesPdfGlob).map (pjoin source_folder) := by
  intro entries
  induction entries with
  | nil => intro acc; simp
  | cons e rest ih =>
    intro acc
    by_cases h : matchesPdfGlob e
    · simp [h, ih]
    · simp [h, ih]

/-- The split `splitext` makes has two parts whose lengths sum back to the
length of the name. -/
theorem splitext_length (s : String) :
    (splitext s).1.length + (splitext s).2.length = s.length := by
  unfold splitext
  split
  · simp
  · split
    · simp
    · show (s.toList.take _).length + (s.toList.drop _).length = s.data.length
      rw [← List.length_append, List.take_append_drop]
      rfl

/-! ## C3: page count and page order of a merge of valid inputs -/

/-- C3.  For every non-empty list of loadable PDF inputs, `merge_pdfs`
writes an output whose pages are the concatenation of the inputs' pages in
input order (and within each input, in original page order), so the output
page count is the sum of the inputs' page counts. -/
theorem merge_pageCount_sum (load : String → Option (List Page))
    (docs : String → List Page) (merged_folder timestamp : String)
    (pdf_files : List String) (hne : pdf_files ≠ [])
    (hall : ∀ f ∈ pdf_files, load f = some (docs f)) :
    (merge_pdfs load true merged_folder timestamp pdf_files).written =
      some (pjoin merged_folder ("merged_" ++ timestamp ++ ".pdf"),
        (pdf_files.map docs).flatten) ∧
    ((pdf_files.map docs).flatten).length =
      (pdf_files.map (fun f => (docs f).length)).sum := by
  constructor
  · unfold merge_pdfs
    rw [if_neg (by simpa [List.isEmpty_iff] using hne)]
    simp only [if_pos rfl]
    rw [addPages_eq]
    have hmap : pdf_files.map (fun f => (load f).getD []) = pdf_files.map docs :=
      List.map_congr_left (fun f hf => by rw [hall f hf]; rfl)
    rw [hmap]
    rfl
  · rw [List.length_flatten, List.map_map]
    rfl

/-- Witness for C3: two concrete documents of 2 and 3 pages merge into a
5-page output. -/
theorem merge_pageCount_sum_witness :
    (merge_pdfs
        (fun f => if f = "incoming_pdfs/a.pdf" then some [0, 1]
          else if f = "incoming_pdfs/b.pdf" then some [2, 3, 4] else none)
        true "merged_pdfs" "20260101_120000"
        ["incoming_pdfs/a.pdf", "incoming_pdfs/b.pdf"]).written =
      some ("merged_pdfs/merged_20260101_120000.pdf", [0, 1, 2, 3, 4]) ∧
    ([0, 1, 2, 3, 4] : List Page).length = 5 := by
  have h := merge_pageCount_sum
    (fun f => if f = "incoming_pdfs/a.pdf" then some [0, 1]
      else if f = "incoming_pdfs/b.pdf" then some [2, 3, 4] else none)
    (fun f => if f = "incoming_pdfs/a.pdf" then [0, 1]
      else if f = "incoming_pdfs/b.pdf" then [2, 3, 4] else [])
    "merged_pdfs" "20260101_120000"
    ["incoming_pdfs/a.pdf", "incoming_pdfs/b.pdf"]
    (by decide) (by intro f hf; fin_cases hf <;> decide)
  exact ⟨by rw [h.1]; decide, by decide⟩

/-! ## C4: a corrupt input is skipped, the merge of the rest proceeds -/

/-- C4.  A file that fails to load is skipped: the merge does not abort
(it still returns an output path) and the written pages are exactly those
accumulated from the remaining files, in order. -/
theorem merge_skips_corrupt (load : String → Option (List Page))
    (merged_folder timestamp bad : String) (l₁ l₂ : List String)
    (hbad : load bad = none) :
    (merge_pdfs load true merged_folder timestamp (l₁ ++ bad :: l₂)).result =
      some (pjoin merged_folder ("merged_" ++ timestamp ++ ".pdf")) ∧
    (merge_pdfs load true merged_folder timestamp (l₁ ++ bad :: l₂)).written =
      some (pjoin merged_folder ("merged_" ++ timestamp ++ ".pdf"),
        addPages load (l₁ ++ l₂) []) := by
  unfold merge_pdfs
  rw [if_neg (by simp [List.isEmpty_iff])]
  simp only [if_pos rfl]
  refine ⟨rfl, ?_⟩
  rw [addPages_eq, addPages_eq]
  simp [hbad]

/-- Witness for C4: a corrupt middle file is skipped and the two good
files around it still contribute all their pages. -/
theorem merge_skips_corrupt_witness :
    (merge_pdfs
        (fun f => if f = "s/corrupt.pdf" then none else some [7])
        true "merged_pdfs" "20260101_120000"
        ["s/a.pdf", "s/corrupt.pdf", "s/b.pdf"]).written =
      some ("merged_pdfs/merged_20260101_120000.pdf", [7, 7]) := by
  have h := merge_skips_corrupt
    (fun f => if f = "s/corrupt.pdf" then none else some [7])
    "merged_pdfs" "20260101_120000" "s/corrupt.pdf"
    ["s/a.pdf"] ["s/b.pdf"] (by decide)
  exact h.2.trans (by decide)

/-! ## C1: all inputs corrupt — what the code actually does -/

/-- Counterexample to C1 as stated: with a single input whose load fails
(zero pages accumulated), `merge_pdfs` does not report failure — it
returns an output path — and it does write an output file (with zero
pages) into the merged-output directory. -/
theorem merge_allCorrupt_counterexample :
    (merge_pdfs (fun _ => none) true "merged_pdfs" "20260101_120000"
        ["incoming_pdfs/a.pdf"]).result =
      some "merged_pdfs/merged_20260101_120000.pdf" ∧
    (merge_pdfs (fun _ => none) true "merged_pdfs" "20260101_120000"
        ["incoming_pdfs/a.pdf"]).written =
      some ("merged_pdfs/merged_20260101_120000.pdf", []) := by
  constructor <;> decide

/-- C1 amended.  When every file of a non-empty input list fails to load,
`merge_pdfs` does not detect the zero-page case: it still writes an output
file containing zero pages into the merged-output directory and returns
its path as a success. -/
theorem merge_allCorrupt_writes_empty (load : String → Option (List Page))
    (merged_folder timestamp : String) (pdf_files : List String)
    (hne : pdf_files ≠ []) (hall : ∀ f ∈ pdf_files, load f = none) :
    (merge_pdfs load true merged_folder timestamp pdf_files).result =
      some (pjoin merged_folder ("merged_" ++ timestamp ++ ".pdf")) ∧
    (merge_pdfs load true merged_folder timestamp pdf_files).written =
      some (pjoin merged_folder ("merged_" ++ timestamp ++ ".pdf"), []) := by
  unfold merge_pdfs
  rw [if_neg (by simpa [List.isEmpty_iff] using hne)]
  simp only [if_pos rfl]
  refine ⟨rfl, ?_⟩
  rw [addPages_eq]
  have : (pdf_files.map (fun f => (load f).getD [])).flatten = [] := by
    rw [List.flatten_eq_nil_iff]
    intro l hl
    rcases List.mem_map.mp hl with ⟨f, hf, rfl⟩
    rw [hall f hf]
    rfl
  rw [this]
  rfl

/-- Witness for the amended C1, at a concrete two-file all-corrupt input. -/
theorem merge_allCorrupt_writes_empty_witness :
    (merge_pdfs (fun _ => none) true "m" "ts" ["s/a.pdf", "s/b.pdf"]).result =
      some "m/merged_ts.pdf" ∧
    (merge_pdfs (fun _ => none) true "m" "ts" ["s/a.pdf", "s/b.pdf"]).written =
      some ("m/merged_ts.pdf", []) := by
  have h := merge_allCorrupt_writes_empty (fun _ => none) "m" "ts"
    ["s/a.pdf", "s/b.pdf"] (by decide) (fun f _ => rfl)
  exact ⟨by rw [h.1]; rfl, by rw [h.2]; rfl⟩

/-- The executable comparison on character lists agrees with the
lexicographic order on `List Char`. -/
theorem charListLe_iff : ∀ (as bs : List Char), charListLe as bs = true ↔ as ≤ bs
  | [], bs => iff_of_true rfl List.nil_le
  | a :: as, [] =>
    iff_of_false (by simp [charListLe]) (not_le.mpr (List.nil_lt_cons a as))
  | a :: as, b :: bs => by
    simp only [charListLe]
    by_cases h1 : a < b
    · rw [if_pos h1]
      exact iff_of_true rfl
        (le_of_lt (show (a :: as) < (b :: bs) from List.Lex.rel h1))
    · rw [if_neg h1]
      by_cases h2 : b < a
      · rw [if_pos h2]
        exact iff_of_false (by simp)
          (not_le.mpr (show (b :: bs) < (a :: as) from List.Lex.rel h2))
      · rw [if_neg h2]
        have hab : a = b := le_antisymm (not_lt.mp h2) (not_lt.mp h1)
        subst hab
        rw [charListLe_iff as bs]
        constructor
        · exact fun h => List.cons_le_cons a h
        · intro h
          by_contra hc
          rw [not_le] at hc
          exact absurd (show (a :: bs) < (a :: as) from List.Lex.cons hc)
            (not_lt.mpr h)

/-- The executable comparison on strings agrees with the lexicographic
order on `String`. -/
theorem strLe_iff {a b : String} : strLe a b = true ↔ a ≤ b := by
  rw [String.le_iff_toList_le]
  exact charListLe_iff _ _

/-- Joining two different names onto the same directory gives different
paths: the name part of a joined path is recoverable. -/
theorem pjoin_right_inj {dir a b : String} (h : pjoin dir a = pjoin dir b) :
    a = b := by
  unfold pjoin at h
  have hd := congrArg String.data h
  simp only [String.data_append] at hd
  exact String.ext (List.append_cancel_left hd)

/-! ## C5: discovery returns the matching files, sorted, or empty -/

/-- C5.  `find_pdf_files` returns the empty list when the source directory
does not exist; otherwise it returns exactly the entries matching the
`*.pdf` filter, joined onto the source folder, as a sequence sorted
ascending by full path string. -/
theorem find_pdf_files_spec (source_folder : String) (src : SourceDir) :
    (src.present = false → find_pdf_files source_folder src = []) ∧
    List.Sorted (fun a b => a ≤ b) (find_pdf_files source_folder src) ∧
    (src.present = true →
      (find_pdf_files source_folder src).Perm
        ((src.entries.filter matchesPdfGlob).map (pjoin source_folder))) := by
  refine ⟨?_, ?_, ?_⟩
  · intro h
    unfold find_pdf_files
    rw [h]
    rfl
  · unfold find_pdf_files
    cases h : src.present with
    | false => simp
    | true =>
      simp only [if_pos]
      haveI : IsTotal String (fun a b => strLe a b = true) :=
        ⟨fun a b => (le_total a b).imp strLe_iff.mpr strLe_iff.mpr⟩
      haveI : IsTrans String (fun a b => strLe a b = true) :=
        ⟨fun a b c h1 h2 =>
          strLe_iff.mpr (le_trans (strLe_iff.mp h1) (strLe_iff.mp h2))⟩
      exact List.Pairwise.imp (fun h => strLe_iff.mp h)
        (List.sorted_insertionSort _ _)
  · intro h
    unfold find_pdf_files
    rw [h]
    simp only [if_pos]
    rw [discoverLoop_eq, List.nil_append]
    exact List.perm_insertionSort _ _

/-- Witness for C5: a missing directory yields the empty list, and a
present directory with entries `b.pdf`, `a.pdf`, `c.txt` yields exactly
the two pdf paths, sorted. -/
theorem find_pdf_files_spec_witness :
    find_pdf_files "incoming_pdfs" ⟨false, ["a.pdf"]⟩ = [] ∧
    (find_pdf_files "incoming_pdfs"
        ⟨true, ["b.pdf", "a.pdf", "c.txt"]⟩).Perm
      ["incoming_pdfs/b.pdf", "incoming_pdfs/a.pdf"] ∧
    find_pdf_files "incoming_pdfs" ⟨true, ["b.pdf", "a.pdf", "c.txt"]⟩ =
      ["incoming_pdfs/a.pdf", "incoming_pdfs/b.pdf"] := by
  refine ⟨(find_pdf_files_spec "incoming_pdfs" ⟨false, ["a.pdf"]⟩).1 rfl, ?_, ?_⟩
  · exact (find_pdf_files_spec "incoming_pdfs"
      ⟨true, ["b.pdf", "a.pdf", "c.txt"]⟩).2.2 rfl
  · decide

/-! ## C10: the extension filter is case-sensitive -/

/-- C10.  A name ending in the upper-case variant `.PDF` does not match the
`*.pdf` glob, and its path is never part of the discovery result, for any
state of the source directory. -/
theorem glob_rejects_uppercase (source_folder : String) (src : SourceDir)
    (name : String)
    (h : List.isSuffixOf ['.', 'P', 'D', 'F'] name.toList = true) :
    matchesPdfGlob name = false ∧
    pjoin source_folder name ∉ find_pdf_files source_folder src := by
  have hm : matchesPdfGlob name = false := by
    by_contra hc
    rw [Bool.not_eq_false] at hc
    have h1 : ['.', 'p', 'd', 'f'] <:+ name.toList :=
      List.isSuffixOf_iff_suffix.mp hc
    have h2 : ['.', 'P', 'D', 'F'] <:+ name.toList :=
      List.isSuffixOf_iff_suffix.mp h
    rcases h1 with ⟨t1, ht1⟩
    rcases h2 with ⟨t2, ht2⟩
    have heq := ht1.trans ht2.symm
    have hlen : t1.length = t2.length := by
      have := congrArg List.length heq
      simp only [List.length_append, List.length_cons, List.length_nil] at this
      omega
    have := (List.append_inj heq hlen).2
    simp at this
  refine ⟨hm, ?_⟩
  intro hmem
  unfold find_pdf_files at hmem
  cases hp : src.present with
  | false =>
    rw [hp] at hmem
    simp at hmem
  | true =>
    rw [hp] at hmem
    simp only [if_pos] at hmem
    rw [discoverLoop_eq, List.nil_append] at hmem
    rw [(List.perm_insertionSort _ _).mem_iff] at hmem
    rcases List.mem_map.mp hmem with ⟨a, ha, hpj⟩
    have : a = name := pjoin_right_inj hpj
    subst this
    rw [List.mem_filter] at ha
    rw [ha.2] at hm
    exact Bool.true_eq_false.mp hm

/-- Witness for C10: `report.PDF` is not matched and not discovered even
when present in the source directory. -/
theorem glob_rejects_uppercase_witness :
    matchesPdfGlob "report.PDF" = false ∧
    pjoin "incoming_pdfs" "report.PDF" ∉
      find_pdf_files "incoming_pdfs" ⟨true, ["report.PDF", "a.pdf"]⟩ :=
  glob_rejects_uppercase "incoming_pdfs" ⟨true, ["report.PDF", "a.pdf"]⟩
    "report.PDF" (by decide)

/-! ## C6: the notify stage never escalates -/

/-- C6.  `send_email` reports not-sent (returns `False`) whenever the SMTP
host or the sender address is unset or the recipient list is empty, and
likewise whenever the SMTP session raises (every exception is caught);
being a total function of its inputs, it never propagates an error. -/
theorem send_email_nonfatal (cfg : EmailConfig) (smtpOk : Bool)
    (attachment_path : Option String) :
    ((cfg.smtp_server = "" ∨ cfg.sender_email = "" ∨ cfg.recipients = "") →
      send_email cfg smtpOk attachment_path = false) ∧
    (smtpOk = false → send_email cfg smtpOk attachment_path = false) := by
  refine ⟨fun h => ?_, fun h => ?_⟩ <;>
    · unfold send_email
      split_ifs <;> simp_all

/-- Witness for C6: an unset SMTP host is skipped, and a raising SMTP
session with complete configuration is reported as not sent. -/
theorem send_email_nonfatal_witness :
    send_email ⟨"", "s@x.org", "", "r@x.org", "subj", "body"⟩ true
      (some "merged_pdfs/out.pdf") = false ∧
    send_email ⟨"smtp.x.org", "s@x.org", "pw", "r@x.org", "subj", "body"⟩ false
      (some "merged_pdfs/out.pdf") = false :=
  ⟨(send_email_nonfatal ⟨"", "s@x.org", "", "r@x.org", "subj", "body"⟩ true
      (some "merged_pdfs/out.pdf")).1 (Or.inl rfl),
   (send_email_nonfatal ⟨"smtp.x.org", "s@x.org", "pw", "r@x.org", "subj", "body"⟩
      false (some "merged_pdfs/out.pdf")).2 rfl⟩

/-! ## C7: archive name collisions -/

/-- Counterexample to C7 as stated: two distinct source files sharing the
base name `report.pdf` are archived in one call while the archive
directory already holds a file named `report.pdf`.  Both collisions
resolve to the same time-stamped destination, so the second move
overwrites the first: afterwards no path in the archive directory holds
the first file's content. -/
theorem archive_collision_counterexample :
    basename "incoming_pdfs/report.pdf" = basename "other_src/report.pdf" ∧
    "incoming_pdfs/report.pdf" ≠ "other_src/report.pdf" ∧
    (archive_files "archive" (fun _ => "120000") (fun _ => true)
        [("archive/report.pdf", "prior")]
        ["incoming_pdfs/report.pdf", "other_src/report.pdf"]).all
      (fun e => decide (e.2 ≠ "incoming_pdfs/report.pdf")) = true := by
  refine ⟨rfl, by decide, by decide⟩

/-- C7 amended.  If the archive directory holds no file at the shared base
name beforehand, archiving two distinct files sharing a base name (both
moves succeeding) leaves both present under distinct names: the first at
the base-name destination, the second at the time-stamped destination. -/
theorem archive_collision_fresh (archive_folder : String)
    (tod : String → String) (renameOk : String → Bool) (d : ArchiveDir)
    (f1 f2 : String) (hbase : basename f1 = basename f2)
    (h1 : renameOk f1 = true) (h2 : renameOk f2 = true)
    (hfresh : ∀ e ∈ d, e.1 ≠ pjoin archive_folder (basename f1)) :
    pjoin archive_folder (basename f1) ≠
      pjoin archive_folder ((splitext (basename f1)).1 ++ "_" ++ tod f2 ++
        (splitext (basename f1)).2) ∧
    (pjoin archive_folder (basename f1), f1) ∈
      archive_files archive_folder tod renameOk d [f1, f2] ∧
    (pjoin archive_folder ((splitext (basename f1)).1 ++ "_" ++ tod f2 ++
        (splitext (basename f1)).2), f2) ∈
      archive_files archive_folder tod renameOk d [f1, f2] := by
  have hne : pjoin archive_folder (basename f1) ≠
      pjoin archive_folder ((splitext (basename f1)).1 ++ "_" ++ tod f2 ++
        (splitext (basename f1)).2) := by
    intro h
    have hl := congrArg String.length h
    have hs := splitext_length (basename f1)
    have hu : ("_" : String).length = 1 := rfl
    simp only [pjoin, String.length_append] at hl
    omega
  have hany1 : d.any
      (fun e => decide (e.1 = pjoin archive_folder (basename f1))) = false := by
    rw [List.any_eq_false]
    intro e he
    simpa using hfresh e he
  have hd1 : destFor archive_folder (tod f1) d f1 =
      pjoin archive_folder (basename f1) := by
    unfold destFor
    rw [hany1]
    simp
  have hmem1 : (pjoin archive_folder (basename f1), f1) ∈
      renameInto d (pjoin archive_folder (basename f1)) f1 := by
    unfold renameInto
    simp
  have hany2 : (renameInto d (pjoin archive_folder (basename f1)) f1).any
      (fun e => decide (e.1 = pjoin archive_folder (basename f2))) = true := by
    rw [← hbase, List.any_eq_true]
    exact ⟨(pjoin archive_folder (basename f1), f1), hmem1, by simp⟩
  have hd2 : destFor archive_folder (tod f2)
      (renameInto d (pjoin archive_folder (basename f1)) f1) f2 =
      pjoin archive_folder ((splitext (basename f1)).1 ++ "_" ++ tod f2 ++
        (splitext (basename f1)).2) := by
    unfold destFor
    rw [hany2]
    rw [← hbase]
    simp
  have harch : archive_files archive_folder tod renameOk d [f1, f2] =
      renameInto (renameInto d (pjoin archive_folder (basename f1)) f1)
        (pjoin archive_folder ((splitext (basename f1)).1 ++ "_" ++ tod f2 ++
          (splitext (basename f1)).2)) f2 := by
    unfold archive_files
    simp only [List.foldl_cons, List.foldl_nil, h1, h2, if_true, hd1, hd2]
  refine ⟨hne, ?_, ?_⟩
  · rw [harch]
    unfold renameInto
    exact List.mem_append.mpr (Or.inl (List.mem_filter.mpr
      ⟨hmem1, decide_eq_true hne⟩))
  · rw [harch]
    unfold renameInto
    exact List.mem_append.mpr (Or.inr (List.mem_singleton.mpr rfl))

/-- Witness for the amended C7: into an empty archive directory, two files
named `report.pdf` from different folders both survive, under the base
name and under the time-stamped name. -/
theorem archive_collision_fresh_witness :
    ("archive/report.pdf", "incoming_pdfs/report.pdf") ∈
      archive_files "archive" (fun _ => "143000") (fun _ => true) []
        ["incoming_pdfs/report.pdf", "old_batch/report.pdf"] ∧
    ("archive/report_143000.pdf", "old_batch/report.pdf") ∈
      archive_files "archive" (fun _ => "143000") (fun _ => true) []
        ["incoming_pdfs/report.pdf", "old_batch/report.pdf"] := by
  have h := archive_collision_fresh "archive" (fun _ => "143000")
    (fun _ => true) [] "incoming_pdfs/report.pdf" "old_batch/report.pdf"
    rfl rfl rfl (by intro e he; cases he)
  exact ⟨h.2.1, h.2.2⟩

/-! ## C2: the verdict is the merge outcome, and nothing else -/

/-- In every outcome of `merge_pdfs`, no output path is returned exactly
when no output file was written. -/
theorem merge_result_none_iff (load : String → Option (List Page))
    (writeOk : Bool) (merged_folder timestamp : String)
    (pdf_files : List String) :
    (merge_pdfs load writeOk merged_folder timestamp pdf_files).result = none ↔
    (merge_pdfs load writeOk merged_folder timestamp pdf_files).written = none := by
  unfold merge_pdfs
  split_ifs <;> simp

/-- C2.  `run` reports success exactly when the merge stage wrote an output
file, and the verdict is unchanged under any email configuration, any SMTP
outcome, any per-file archive-move outcomes and any prior archive state. -/
theorem run_verdict (env : RunEnv) :
    ((run env).success = true ↔ (run env).written ≠ none) ∧
    (∀ (cfg : EmailConfig) (sOk : Bool) (rOk : String → Bool)
        (td : String → String) (ad : ArchiveDir),
      (run { env with email := cfg, smtpOk := sOk, renameOk := rOk, tod := td, archiveDir := ad }).success = (run env).success) := by
  constructor
  · unfold run
    split
    · simp
    · split
      · rename_i heq
        have hw := (merge_result_none_iff env.load env.writeOk env.merged_folder
          env.mergeTimestamp (find_pdf_files env.source_folder env.src)).mp heq
        simp [hw]
      · rename_i p heq
        have hw : (merge_pdfs env.load env.writeOk env.merged_folder
            env.mergeTimestamp (find_pdf_files env.source_folder env.src)).written ≠
            none := by
          intro hn
          rw [← merge_result_none_iff] at hn
          rw [heq] at hn
          cases hn
        simp [hw]
  · intro cfg sOk rOk td ad
    unfold run
    dsimp only
    split
    · rfl
    · split <;> rfl

/-- Witness for C2: a concrete run in which the merge writes an output but
the SMTP session raises is still reported as an overall success. -/
theorem run_verdict_witness :
    (run ⟨"incoming_pdfs", "merged_pdfs", "archive", ⟨true, ["a.pdf"]⟩,
        (fun _ => some [0]), true,
        ⟨"smtp.x.org", "s@x.org", "pw", "r@x.org", "subj", "body"⟩, false,
        (fun _ => true), "20260101_120000", (fun _ => "120000"), []⟩).success =
      true := by
  exact (run_verdict _).1.mpr (by decide)

/-! ## C8: zero files discovered means an early failing exit -/

/-- C8.  When discovery yields zero files, the run reports failure and the
merge, notify and archive stages are never invoked: no output is written,
no email is attempted, and the archive directory is untouched. -/
theorem run_zero_files_early_exit (env : RunEnv)
    (h : find_pdf_files env.source_folder env.src = []) :
    (run env).success = false ∧ (run env).mergeInput = none ∧
    (run env).emailAttachment = none ∧ (run env).archiveInput = none ∧
    (run env).written = none ∧ (run env).emailSent = none ∧
    (run env).archiveDirAfter = env.archiveDir := by
  unfold run
  rw [h]
  simp

/-- Witness for C8: a source directory holding only `c.txt` discovers no
files, and the run fails without reaching any later stage. -/
theorem run_zero_files_early_exit_witness :
    (run ⟨"incoming_pdfs", "merged_pdfs", "archive", ⟨true, ["c.txt"]⟩,
        (fun _ => some [0]), true,
        ⟨"smtp.x.org", "s@x.org", "pw", "r@x.org", "subj", "body"⟩, true,
        (fun _ => true), "20260101_120000", (fun _ => "120000"), []⟩).success =
      false ∧
    (run ⟨"incoming_pdfs", "merged_pdfs", "archive", ⟨true, ["c.txt"]⟩,
        (fun _ => some [0]), true,
        ⟨"smtp.x.org", "s@x.org", "pw", "r@x.org", "subj", "body"⟩, true,
        (fun _ => true), "20260101_120000", (fun _ => "120000"), []⟩).archiveInput =
      none := by
  have h := run_zero_files_early_exit
    ⟨"incoming_pdfs", "merged_pdfs", "archive", ⟨true, ["c.txt"]⟩,
      (fun _ => some [0]), true,
      ⟨"smtp.x.org", "s@x.org", "pw", "r@x.org", "subj", "body"⟩, true,
      (fun _ => true), "20260101_120000", (fun _ => "120000"), []⟩ (by decide)
  exact ⟨h.1, h.2.2.2.1⟩

/-! ## C9: the same file sequence flows through merge and archive -/

/-- C9.  Whenever the merge stage is invoked it receives exactly the sorted
discovery output; whenever an output file is written, the archive stage is
invoked with that same sequence; and whenever the archive stage is invoked
its input is exactly the merge stage's input, which is the discovery
output. -/
theorem run_stage_inputs_agree (env : RunEnv) :
    ((run env).mergeInput = none ∨
      (run env).mergeInput = some (find_pdf_files env.source_folder env.src)) ∧
    ((run env).written ≠ none →
      (run env).mergeInput = some (find_pdf_files env.source_folder env.src) ∧
      (run env).archiveInput = some (find_pdf_files env.source_folder env.src)) ∧
    ((run env).archiveInput ≠ none →
      (run env).archiveInput = some (find_pdf_files env.source_folder env.src) ∧
      (run env).mergeInput = (run env).archiveInput) := by
  unfold run
  split
  · refine ⟨Or.inl rfl, fun h => ?_, fun h => ?_⟩ <;> simp at h
  · split
    · rename_i heq
      have hw := (merge_result_none_iff env.load env.writeOk env.merged_folder
        env.mergeTimestamp (find_pdf_files env.source_folder env.src)).mp heq
      refine ⟨Or.inr rfl, fun h => ?_, fun h => ?_⟩ <;> simp [hw] at h
    · exact ⟨Or.inr rfl, fun _ => ⟨rfl, rfl⟩, fun _ => ⟨rfl, rfl⟩⟩

/-- Witness for C9: in a concrete successful run, merge and archive both
receive exactly the one discovered path. -/
theorem run_stage_inputs_agree_witness :
    (run ⟨"incoming_pdfs", "merged_pdfs", "archive", ⟨true, ["a.pdf"]⟩,
        (fun _ => some [0]), true,
        ⟨"", "", "", "", "", ""⟩, true,
        (fun _ => true), "20260101_120000", (fun _ => "120000"), []⟩).archiveInput =
      some ["incoming_pdfs/a.pdf"] ∧
    (run ⟨"incoming_pdfs", "merged_pdfs", "archive", ⟨true, ["a.pdf"]⟩,
        (fun _ => some [0]), true,
        ⟨"", "", "", "", "", ""⟩, true,
        (fun _ => true), "20260101_120000", (fun _ => "120000"), []⟩).mergeInput =
      some ["incoming_pdfs/a.pdf"] := by
  have h := (run_stage_inputs_agree
    ⟨"incoming_pdfs", "merged_pdfs", "archive", ⟨true, ["a.pdf"]⟩,
      (fun _ => some [0]), true,
      ⟨"", "", "", "", "", ""⟩, true,
      (fun _ => true), "20260101_120000", (fun _ => "120000"), []⟩).2.2
    (by decide)
  exact ⟨h.1.trans (by decide), (h.2.trans h.1).trans (by decide)⟩

end PDFMerger
